import Mathlib

set_option linter.unnecessarySeqFocus false
set_option linter.unreachableTactic false
set_option linter.unusedTactic false

/-!
Verification of the hand-implemented WebSocket transport of this repository:
frame codec, handshake negotiator, connection session and hub, and the
matching client driver.  Byte streams are modelled as `List Nat` (each
element a byte value), and Go's fallible reads become `Except`-valued
functions.  Definitions mirror the Go source (`server.go` and the client);
theorems state the specified properties.
-/

/-- Error taxonomy of the frame codec: a fragmented frame is a protocol
error, a short read is an I/O error. -/
inductive FrameErr where
  | protocolError
  | ioError
deriving DecidableEq, Repr

/-- Model of `io.ReadFull(r, buf)` with `len(buf) = n` over a byte stream:
returns the first `n` bytes and the remaining stream, or an I/O error when
fewer than `n` bytes are available. -/
def readFullE (n : Nat) (s : List Nat) : Except FrameErr (List Nat × List Nat) :=
  if n ≤ s.length then .ok (s.take n, s.drop n) else .error .ioError

/-- Go's `byte(x)` conversion: truncation to the low 8 bits. -/
def byteOf (x : Nat) : Nat := x % 256

/-- The unmasking loop of `readWebSocketFrame`:
`for i := 0; i < payloadLen; i++ { payload[i] ^= maskKey[i%4] }`,
with `i` threaded explicitly. -/
def xorMask (key : List Nat) : Nat → List Nat → List Nat
  | _, [] => []
  | i, b :: bs => (b ^^^ key.getD (i % 4) 0) :: xorMask key (i + 1) bs

/-- Model of `readWebSocketFrame` from `server.go` (identical in the client): reads a
2-byte header, rejects non-final frames, extends the 7-bit length via a
2-byte (126) or 8-byte (127) big-endian field, reads a 4-byte mask key when
the mask bit is set, reads the payload, and unmasks it when masked.
Returns `(opcode, payload, remaining stream)`. -/
def readWebSocketFrame (s : List Nat) : Except FrameErr (Nat × List Nat × List Nat) :=
  match readFullE 2 s with
  | .error e => .error e
  | .ok (header, s1) =>
    let b0 := header.getD 0 0
    let b1 := header.getD 1 0
    if b0 &&& 0x80 = 0 then .error .protocolError
    else
      match
        (if b1 &&& 0x7f = 126 then
          match readFullE 2 s1 with
          | .error e => .error e
          | .ok (ext, s2) => .ok (ext.getD 0 0 <<< 8 ||| ext.getD 1 0, s2)
        else if b1 &&& 0x7f = 127 then
          match readFullE 8 s1 with
          | .error e => .error e
          | .ok (ext, s2) =>
            .ok (ext.getD 0 0 <<< 56 ||| ext.getD 1 0 <<< 48 |||
                 ext.getD 2 0 <<< 40 ||| ext.getD 3 0 <<< 32 |||
                 ext.getD 4 0 <<< 24 ||| ext.getD 5 0 <<< 16 |||
                 ext.getD 6 0 <<< 8 ||| ext.getD 7 0, s2)
        else (.ok (b1 &&& 0x7f, s1) : Except FrameErr (Nat × List Nat))) with
      | .error e => .error e
      | .ok (payloadLen, s2) =>
        match (if b1 &&& 0x80 ≠ 0 then readFullE 4 s2 else .ok ([], s2)) with
        | .error e => .error e
        | .ok (maskKey, s3) =>
          match readFullE payloadLen s3 with
          | .error e => .error e
          | .ok (payload, s4) =>
            .ok (b0 &&& 0x0f,
                 (if b1 &&& 0x80 ≠ 0 then xorMask maskKey 0 payload else payload),
                 s4)

/-- Model of `writeWebSocketFrame` from `server.go` (identical in the client): always
sets the final bit, never the mask bit, and picks the 1-, 3- or 9-byte
header by the thresholds 125 and 65536. -/
def writeWebSocketFrame (opcode : Nat) (payload : List Nat) : List Nat :=
  let payloadLen := payload.length
  (if payloadLen ≤ 125 then
    [0x80 ||| opcode, byteOf payloadLen]
  else if payloadLen < 65536 then
    [0x80 ||| opcode, 126, byteOf (payloadLen >>> 8), byteOf (payloadLen &&& 0xff)]
  else
    [0x80 ||| opcode, 127,
     byteOf (payloadLen >>> 56), byteOf (payloadLen >>> 48),
     byteOf (payloadLen >>> 40), byteOf (payloadLen >>> 32),
     byteOf (payloadLen >>> 24), byteOf (payloadLen >>> 16),
     byteOf (payloadLen >>> 8), byteOf payloadLen]) ++ payload

/-- The client-style masking step the spec's round-trip law adds on top of
`writeWebSocketFrame`: set the mask bit in the second header byte, insert
the 4-byte mask key after the (possibly extended) length field, and XOR
each payload byte with `key[i % 4]`. -/
def applyClientMask (key : List Nat) : List Nat → List Nat
  | b0 :: b1 :: rest =>
    let extLen := if b1 &&& 0x7f = 126 then 2 else if b1 &&& 0x7f = 127 then 8 else 0
    b0 :: (b1 ||| 0x80) :: (rest.take extLen ++ key ++ xorMask key 0 (rest.drop extLen))
  | s => s

/-- Big-endian value of a byte list (the spec-side reading of length
fields). -/
def beListVal (l : List Nat) : Nat := l.foldl (fun a b => 256 * a + b) 0

/-! ### Handshake negotiator: SHA-1, base64 and the header checks -/

/-- Bytes of an ASCII string (header values and chat text in this system
are ASCII). -/
def strBytes (s : String) : List Nat := s.data.map Char.toNat

/-- Left rotation of a 32-bit word. -/
def rotl32 (k x : Nat) : Nat := ((x <<< k) % 4294967296) ||| (x >>> (32 - k))

/-- Big-endian bytes of a 32-bit word. -/
def be32 (x : Nat) : List Nat :=
  [byteOf (x >>> 24), byteOf (x >>> 16), byteOf (x >>> 8), byteOf x]

/-- Big-endian bytes of a 64-bit word. -/
def be64 (x : Nat) : List Nat :=
  [byteOf (x >>> 56), byteOf (x >>> 48), byteOf (x >>> 40), byteOf (x >>> 32),
   byteOf (x >>> 24), byteOf (x >>> 16), byteOf (x >>> 8), byteOf x]

/-- SHA-1 message padding: `0x80`, zeros to 56 mod 64, then the bit length
as a big-endian 64-bit value.  Models Go's `crypto/sha1` (an external
collaborator of the source, which calls `sha1.New/Write/Sum`). -/
def sha1Pad (msg : List Nat) : List Nat :=
  msg ++ [0x80] ++ List.replicate ((119 - msg.length % 64) % 64) 0 ++
    be64 (8 * msg.length)

/-- Split a byte list into 64-byte chunks (structural recursion on a fuel
argument so that the definition reduces inside the kernel; the fuel
`l.length` always suffices since each step consumes at least one byte). -/
def chunks64Aux : Nat → List Nat → List (List Nat)
  | _, [] => []
  | 0, l => [l]
  | fuel + 1, b :: rest => List.take 64 (b :: rest) :: chunks64Aux fuel (List.drop 64 (b :: rest))

def chunks64 (l : List Nat) : List (List Nat) := chunks64Aux l.length l

/-- Big-endian 32-bit words of a chunk. -/
def wordsOf : List Nat → List Nat
  | b0 :: b1 :: b2 :: b3 :: rest =>
    (b0 <<< 24 ||| b1 <<< 16 ||| b2 <<< 8 ||| b3) :: wordsOf rest
  | _ => []

/-- Extend the 16-word schedule by `n` further words
(`w[i] = rotl1 (w[i-3] ^^^ w[i-8] ^^^ w[i-14] ^^^ w[i-16])`). -/
def extendW (w : List Nat) : Nat → List Nat
  | 0 => w
  | n + 1 =>
    let prev := extendW w n
    prev ++ [rotl32 1 (prev.getD (prev.length - 3) 0 ^^^ prev.getD (prev.length - 8) 0 ^^^
      prev.getD (prev.length - 14) 0 ^^^ prev.getD (prev.length - 16) 0)]

def sha1F (i b c d : Nat) : Nat :=
  if i < 20 then (b &&& c) ||| ((b ^^^ 0xffffffff) &&& d)
  else if i < 40 then b ^^^ c ^^^ d
  else if i < 60 then (b &&& c) ||| (b &&& d) ||| (c &&& d)
  else b ^^^ c ^^^ d

def sha1K (i : Nat) : Nat :=
  if i < 20 then 0x5a827999 else if i < 40 then 0x6ed9eba1
  else if i < 60 then 0x8f1bbcdc else 0xca62c1d6

def sha1Compress (h : Nat × Nat × Nat × Nat × Nat) (chunk : List Nat) :
    Nat × Nat × Nat × Nat × Nat :=
  let w := extendW (wordsOf chunk) 64
  let final := (List.range 80).foldl
    (fun st i =>
      let (a, b, c, d, e) := st
      let temp := (rotl32 5 a + sha1F i b c d + e + sha1K i + w.getD i 0) % 4294967296
      (temp, a, rotl32 30 b, c, d))
    h
  ((h.1 + final.1) % 4294967296, (h.2.1 + final.2.1) % 4294967296,
   (h.2.2.1 + final.2.2.1) % 4294967296, (h.2.2.2.1 + final.2.2.2.1) % 4294967296,
   (h.2.2.2.2 + final.2.2.2.2) % 4294967296)

/-- SHA-1 digest (20 bytes) of a byte list. -/
def sha1 (msg : List Nat) : List Nat :=
  let f := (chunks64 (sha1Pad msg)).foldl sha1Compress
    (0x67452301, 0xefcdab89, 0x98badcfe, 0x10325476, 0xc3d2e1f0)
  be32 f.1 ++ be32 f.2.1 ++ be32 f.2.2.1 ++ be32 f.2.2.2.1 ++ be32 f.2.2.2.2

def b64Char (n : Nat) : Char :=
  "ABCDEFGHIJKLMNOPQRSTUVWXYZabcdefghijklmnopqrstuvwxyz0123456789+/".data.getD n 'A'

/-- Standard base64 encoding with `=` padding, as in Go's
`base64.StdEncoding.EncodeToString`. -/
def b64Chars : List Nat → List Char
  | [] => []
  | [b0] =>
    [b64Char ((b0 <<< 16 >>> 18) &&& 63), b64Char ((b0 <<< 16 >>> 12) &&& 63), '=', '=']
  | [b0, b1] =>
    [b64Char (((b0 <<< 16 ||| b1 <<< 8) >>> 18) &&& 63),
     b64Char (((b0 <<< 16 ||| b1 <<< 8) >>> 12) &&& 63),
     b64Char (((b0 <<< 16 ||| b1 <<< 8) >>> 6) &&& 63), '=']
  | b0 :: b1 :: b2 :: rest =>
    b64Char (((b0 <<< 16 ||| b1 <<< 8 ||| b2) >>> 18) &&& 63) ::
    b64Char (((b0 <<< 16 ||| b1 <<< 8 ||| b2) >>> 12) &&& 63) ::
    b64Char (((b0 <<< 16 ||| b1 <<< 8 ||| b2) >>> 6) &&& 63) ::
    b64Char ((b0 <<< 16 ||| b1 <<< 8 ||| b2) &&& 63) :: b64Chars rest

def base64Encode (l : List Nat) : String := String.mk (b64Chars l)

/-- The fixed GUID of RFC 6455 used by `computeAcceptKey`. -/
def magicGUID : String := "258EAFA5-E914-47DA-95CA-C5AB0DC85B11"

/-- Model of `computeAcceptKey` from `server.go`:
`base64(sha1(key + magicGUID))`. -/
def computeAcceptKey (key : String) : String :=
  base64Encode (sha1 (strBytes (key ++ magicGUID)))

/-- ASCII lower-casing, modelling `strings.EqualFold` on the ASCII header
values this system compares. -/
def toLowerChar (c : Char) : Char :=
  if 'A' ≤ c ∧ c ≤ 'Z' then Char.ofNat (c.toNat + 32) else c

def eqFold (a b : String) : Bool :=
  a.data.map toLowerChar == b.data.map toLowerChar

def startsWithL : List Char → List Char → Bool
  | _, [] => true
  | [], _ :: _ => false
  | a :: as, b :: bs => a == b && startsWithL as bs

/-- Model of `strings.Contains s sub`: some suffix of `s` starts with `sub`. -/
def containsSub : List Char → List Char → Bool
  | [], sub => startsWithL [] sub
  | c :: rest, sub => startsWithL (c :: rest) sub || containsSub rest sub

/-- The four request headers `isWebSocketUpgrade` inspects. -/
structure Headers where
  connection : String
  upgrade : String
  secWebSocketKey : String
  secWebSocketVersion : String
deriving DecidableEq

/-- Model of `isWebSocketUpgrade` from `server.go`: the sequential header checks. -/
def isWebSocketUpgrade (r : Headers) : Bool :=
  if !eqFold r.connection "Upgrade" then false
  else if !eqFold r.upgrade "websocket" then false
  else if r.secWebSocketKey == "" then false
  else if !containsSub r.secWebSocketVersion.data "13".data then false
  else true

/-! ### Connection session: identity phase of `WebSocketHandler` -/

/-- ASCII whitespace recognized by `strings.TrimSpace` on the byte values
this system handles. -/
def isSpaceByte (b : Nat) : Bool :=
  b == 32 || b == 9 || b == 10 || b == 11 || b == 12 || b == 13

/-- Model of `strings.TrimSpace` over payload bytes. -/
def trimSpace (l : List Nat) : List Nat :=
  ((l.dropWhile isSpaceByte).reverse.dropWhile isSpaceByte).reverse

/-- One byte of `html.EscapeString`: `&`, `'`, `<`, `>`, `"` become entity
references, everything else is unchanged. -/
def escapeByte (b : Nat) : List Nat :=
  if b == 38 then strBytes "&amp;"
  else if b == 39 then strBytes "&#39;"
  else if b == 60 then strBytes "&lt;"
  else if b == 62 then strBytes "&gt;"
  else if b == 34 then strBytes "&#34;"
  else [b]

/-- Model of `html.EscapeString` over payload bytes. -/
def htmlEscape (l : List Nat) : List Nat := l.flatMap escapeByte

/-- Outcome of the pre-registration part of `WebSocketHandler`: the request
was rejected before the upgrade (no frame read), the session ended before a
name was registered (close opcode or read error on the first frame), or a
session was registered with the sanitized display name and the unread
remainder of the stream. -/
inductive HandlerResult where
  | rejected
  | closedBeforeIdentity
  | registered (username : List Nat) (rest : List Nat)
deriving DecidableEq, Repr

/-- The handshake check and identity phase of `WebSocketHandler` in
`server.go`: reject non-upgrade requests with a 400 before reading any
frame; otherwise read the first frame, end the session on a read error or
a Close opcode, and otherwise register a client whose username is the
trimmed payload (defaulted to `"Anonymous"` when empty) passed through
`html.EscapeString`. -/
def webSocketHandlerPhase1 (r : Headers) (stream : List Nat) : HandlerResult :=
  if !isWebSocketUpgrade r then .rejected
  else
    match readWebSocketFrame stream with
    | .error _ => .closedBeforeIdentity
    | .ok (opcode, payload, rest) =>
      if opcode == 0x8 then .closedBeforeIdentity
      else
        .registered
          (htmlEscape (if trimSpace payload == [] then strBytes "Anonymous"
                       else trimSpace payload))
          rest

/-! ### Hub: registry and broadcast fan-out -/

/-- A connected client: an identity for its connection plus the display
name stored at registration (`client` struct of `server.go`; the stream is
modelled separately as a map from clients to written bytes). -/
structure Client where
  id : Nat
  username : List Nat
deriving DecidableEq, Repr

/-- The hub's membership: the key set of the `clients` map, kept as a
duplicate-free list. -/
structure hubState where
  clients : List Client
deriving DecidableEq, Repr

/-- Model of `hub.register`: map insertion (`h.clients[c] = struct{}{}`). -/
def hubState.register (h : hubState) (c : Client) : hubState :=
  if c ∈ h.clients then h else ⟨c :: h.clients⟩

/-- Model of `hub.unregister`: map deletion (`delete(h.clients, c)`). -/
def hubState.unregister (h : hubState) (c : Client) : hubState :=
  ⟨h.clients.filter (fun d => d != c)⟩

/-- The line `hub.broadcast` formats: `"<username>: <payload>"`. -/
def broadcastMessage (sender : Client) (msg : List Nat) : List Nat :=
  sender.username ++ strBytes ": " ++ msg

/-- Model of `hub.broadcast`: the Text frame written to each currently registered
session (one `c.send(message)` per member of the map). -/
def hubState.broadcastWrites (h : hubState) (sender : Client) (msg : List Nat) :
    List (Client × List Nat) :=
  h.clients.map (fun c => (c, writeWebSocketFrame 0x1 (broadcastMessage sender msg)))

/-- The fan-out loop of `hub.broadcast` with per-recipient write results:
`send`'s error is discarded, so the loop continues past failed recipients;
a failed write appends nothing to that recipient's stream. -/
def broadcastDeliver (fail : Client → Bool) (frame : List Nat) :
    List Client → (Client → List Nat) → Client → List Nat
  | [], streams => streams
  | c :: rest, streams =>
    broadcastDeliver fail frame rest
      (fun d => if d = c then (if fail c then streams d else streams d ++ frame)
                else streams d)


/-! ### Arithmetic helper lemmas for the bit manipulations of the codec -/

theorem lor_eq_add_of (k x y : Nat) (hx : x % 2 ^ k = 0) (hy : y < 2 ^ k) :
    x ||| y = x + y := by
  have hxx : x = 2 ^ k * (x / 2 ^ k) := by
    have := Nat.mod_add_div x (2 ^ k)
    omega
  rw [hxx, ← Nat.mul_add_lt_is_or hy]

theorem and127_eq (x : Nat) : x &&& 127 = x % 128 := by
  have := Nat.and_pow_two_sub_one_eq_mod x 7
  norm_num at this
  exact this

theorem and15_eq (x : Nat) : x &&& 15 = x % 16 := by
  have := Nat.and_pow_two_sub_one_eq_mod x 4
  norm_num at this
  exact this

theorem and255_eq (x : Nat) : x &&& 255 = x % 256 := by
  have := Nat.and_pow_two_sub_one_eq_mod x 8
  norm_num at this
  exact this

theorem and128_eq (x : Nat) : x &&& 128 = (x / 128 % 2) * 128 := by
  have h := Nat.and_two_pow x 7
  rw [Nat.testBit_to_div_mod] at h
  norm_num at h
  by_cases hd : x / 128 % 2 = 1
  · simp [hd] at h
    omega
  · simp [hd] at h
    omega

theorem or128_eq (n : Nat) (h : n < 128) : n ||| 128 = 128 + n := by
  rw [Nat.lor_comm]
  exact lor_eq_add_of 7 128 n (by norm_num) (by norm_num <;> omega)

theorem or_fin_bit (op : Nat) : (128 ||| op) &&& 128 = 128 := by
  rw [Nat.and_distrib_right, and128_eq, and128_eq]
  have h : op / 128 % 2 = 0 ∨ op / 128 % 2 = 1 := by omega
  rcases h with h | h
  · norm_num [h]
  · norm_num [h, Nat.or_self]

theorem or_opcode (op : Nat) (h : op < 16) : (128 ||| op) &&& 15 = op := by
  rw [Nat.lor_comm, or128_eq op (by omega), and15_eq]
  omega

/-! ### Basic facts about `readFullE` and `xorMask` -/

theorem readFullE_append (as bs : List Nat) (n : Nat) (h : as.length = n) :
    readFullE n (as ++ bs) = .ok (as, bs) := by
  subst h
  simp [readFullE, List.take_append, List.drop_append]

theorem readFullE_exact (as : List Nat) (n : Nat) (h : as.length = n) :
    readFullE n as = .ok (as, []) := by
  have := readFullE_append as [] n h
  simpa using this

theorem readFullE_short (s : List Nat) (n : Nat) (h : s.length < n) :
    readFullE n s = .error .ioError := by
  simp [readFullE]
  omega

theorem xorMask_length (key p : List Nat) (i : Nat) :
    (xorMask key i p).length = p.length := by
  induction p generalizing i with
  | nil => rfl
  | cons b bs ih => simp [xorMask, ih]

theorem xorMask_involutive (key p : List Nat) (i : Nat) :
    xorMask key i (xorMask key i p) = p := by
  induction p generalizing i with
  | nil => rfl
  | cons b bs ih =>
    simp [xorMask, ih, Nat.xor_assoc]

theorem be2_or (e0 e1 : Nat) (h1 : e1 < 256) :
    e0 <<< 8 ||| e1 = e0 * 2 ^ 8 + e1 := by
  simp only [Nat.shiftLeft_eq]
  exact lor_eq_add_of 8 _ _ (by simp [Nat.mul_mod_left]) (by norm_num <;> omega)

theorem be8_or (e0 e1 e2 e3 e4 e5 e6 e7 : Nat)
    (h1 : e1 < 256) (h2 : e2 < 256) (h3 : e3 < 256) (h4 : e4 < 256)
    (h5 : e5 < 256) (h6 : e6 < 256) (h7 : e7 < 256) :
    e0 <<< 56 ||| e1 <<< 48 ||| e2 <<< 40 ||| e3 <<< 32 ||| e4 <<< 24 |||
      e5 <<< 16 ||| e6 <<< 8 ||| e7 =
    e0 * 2 ^ 56 + e1 * 2 ^ 48 + e2 * 2 ^ 40 + e3 * 2 ^ 32 + e4 * 2 ^ 24 +
      e5 * 2 ^ 16 + e6 * 2 ^ 8 + e7 := by
  simp only [Nat.shiftLeft_eq]
  have s1 : e0 * 2 ^ 56 ||| e1 * 2 ^ 48 = e0 * 2 ^ 56 + e1 * 2 ^ 48 :=
    lor_eq_add_of 56 _ _ (by norm_num <;> omega) (by norm_num <;> omega)
  have s2 : e0 * 2 ^ 56 + e1 * 2 ^ 48 ||| e2 * 2 ^ 40 =
      e0 * 2 ^ 56 + e1 * 2 ^ 48 + e2 * 2 ^ 40 :=
    lor_eq_add_of 48 _ _ (by norm_num <;> omega) (by norm_num <;> omega)
  have s3 : e0 * 2 ^ 56 + e1 * 2 ^ 48 + e2 * 2 ^ 40 ||| e3 * 2 ^ 32 =
      e0 * 2 ^ 56 + e1 * 2 ^ 48 + e2 * 2 ^ 40 + e3 * 2 ^ 32 :=
    lor_eq_add_of 40 _ _ (by norm_num <;> omega) (by norm_num <;> omega)
  have s4 : e0 * 2 ^ 56 + e1 * 2 ^ 48 + e2 * 2 ^ 40 + e3 * 2 ^ 32 ||| e4 * 2 ^ 24 =
      e0 * 2 ^ 56 + e1 * 2 ^ 48 + e2 * 2 ^ 40 + e3 * 2 ^ 32 + e4 * 2 ^ 24 :=
    lor_eq_add_of 32 _ _ (by norm_num <;> omega) (by norm_num <;> omega)
  have s5 : e0 * 2 ^ 56 + e1 * 2 ^ 48 + e2 * 2 ^ 40 + e3 * 2 ^ 32 + e4 * 2 ^ 24 |||
        e5 * 2 ^ 16 =
      e0 * 2 ^ 56 + e1 * 2 ^ 48 + e2 * 2 ^ 40 + e3 * 2 ^ 32 + e4 * 2 ^ 24 +
        e5 * 2 ^ 16 :=
    lor_eq_add_of 24 _ _ (by norm_num <;> omega) (by norm_num <;> omega)
  have s6 : e0 * 2 ^ 56 + e1 * 2 ^ 48 + e2 * 2 ^ 40 + e3 * 2 ^ 32 + e4 * 2 ^ 24 +
        e5 * 2 ^ 16 ||| e6 * 2 ^ 8 =
      e0 * 2 ^ 56 + e1 * 2 ^ 48 + e2 * 2 ^ 40 + e3 * 2 ^ 32 + e4 * 2 ^ 24 +
        e5 * 2 ^ 16 + e6 * 2 ^ 8 :=
    lor_eq_add_of 16 _ _ (by norm_num <;> omega) (by norm_num <;> omega)
  have s7 : e0 * 2 ^ 56 + e1 * 2 ^ 48 + e2 * 2 ^ 40 + e3 * 2 ^ 32 + e4 * 2 ^ 24 +
        e5 * 2 ^ 16 + e6 * 2 ^ 8 ||| e7 =
      e0 * 2 ^ 56 + e1 * 2 ^ 48 + e2 * 2 ^ 40 + e3 * 2 ^ 32 + e4 * 2 ^ 24 +
        e5 * 2 ^ 16 + e6 * 2 ^ 8 + e7 :=
    lor_eq_add_of 8 _ _ (by norm_num <;> omega) (by norm_num <;> omega)
  rw [s1, s2, s3, s4, s5, s6, s7]

/-! ### Characterizations of `readWebSocketFrame` by header shape -/

theorem readFullE_cons2 (a b : Nat) (rest : List Nat) :
    readFullE 2 (a :: b :: rest) = .ok ([a, b], rest) := by
  simp [readFullE]

theorem decode_short_header (s : List Nat) (h : s.length < 2) :
    readWebSocketFrame s = .error .ioError := by
  unfold readWebSocketFrame
  rw [readFullE_short s 2 h]

theorem decode_not_fin (b0 b1 : Nat) (rest : List Nat) (hfin : b0 &&& 0x80 = 0) :
    readWebSocketFrame (b0 :: b1 :: rest) = .error .protocolError := by
  unfold readWebSocketFrame
  rw [readFullE_cons2]
  simp [hfin]
theorem decode_base (b0 b1 : Nat) (rest : List Nat)
    (hfin : b0 &&& 0x80 ≠ 0) (hmask : b1 &&& 0x80 = 0)
    (h6 : b1 &&& 0x7f ≠ 126) (h7 : b1 &&& 0x7f ≠ 127) :
    readWebSocketFrame (b0 :: b1 :: rest) =
      if b1 &&& 0x7f ≤ rest.length then
        .ok (b0 &&& 0x0f, rest.take (b1 &&& 0x7f), rest.drop (b1 &&& 0x7f))
      else .error .ioError := by
  unfold readWebSocketFrame
  rw [readFullE_cons2]
  simp only [List.getD_cons_zero, List.getD_cons_succ, hmask, readFullE,
    if_neg hfin, if_neg h6, if_neg h7]
  norm_num
  split <;> rename_i heq <;> by_cases hL : b1 &&& 127 ≤ rest.length <;>
    simp [hL] at heq ⊢ <;> simp_all
theorem decode_base_masked (b0 b1 : Nat) (rest : List Nat)
    (hfin : b0 &&& 0x80 ≠ 0) (hmask : b1 &&& 0x80 ≠ 0)
    (h6 : b1 &&& 0x7f ≠ 126) (h7 : b1 &&& 0x7f ≠ 127) :
    readWebSocketFrame (b0 :: b1 :: rest) =
      if 4 + (b1 &&& 0x7f) ≤ rest.length then
        .ok (b0 &&& 0x0f,
             xorMask (rest.take 4) 0 ((rest.drop 4).take (b1 &&& 0x7f)),
             (rest.drop 4).drop (b1 &&& 0x7f))
      else .error .ioError := by
  unfold readWebSocketFrame
  rw [readFullE_cons2]
  simp only [List.getD_cons_zero, List.getD_cons_succ, hmask, readFullE,
    if_neg hfin, if_neg h6, if_neg h7]
  norm_num
  by_cases h4 : 4 ≤ rest.length
  · by_cases hL : b1 &&& 127 ≤ rest.length - 4
    · simp [h4, hL, hmask, List.length_drop,
        show 4 + (b1 &&& 127) ≤ rest.length from by omega]
    · simp [h4, hL, hmask, List.length_drop,
        show ¬(4 + (b1 &&& 127) ≤ rest.length) from by omega]
  · simp [h4, hmask, List.length_drop,
      show ¬(4 + (b1 &&& 127) ≤ rest.length) from by omega]
theorem decode_ext2 (b0 b1 e0 e1 : Nat) (rest : List Nat)
    (hfin : b0 &&& 0x80 ≠ 0) (hmask : b1 &&& 0x80 = 0) (h6 : b1 &&& 0x7f = 126) :
    readWebSocketFrame (b0 :: b1 :: e0 :: e1 :: rest) =
      if e0 <<< 8 ||| e1 ≤ rest.length then
        .ok (b0 &&& 0x0f, rest.take (e0 <<< 8 ||| e1), rest.drop (e0 <<< 8 ||| e1))
      else .error .ioError := by
  unfold readWebSocketFrame
  rw [readFullE_cons2]
  simp only [readFullE_cons2, List.getD_cons_zero, List.getD_cons_succ, hmask, h6,
    if_neg hfin, readFullE]
  norm_num
  by_cases hL : e0 <<< 8 ||| e1 ≤ rest.length <;> simp [hL, hmask]

theorem decode_ext2_masked (b0 b1 e0 e1 : Nat) (rest : List Nat)
    (hfin : b0 &&& 0x80 ≠ 0) (hmask : b1 &&& 0x80 ≠ 0) (h6 : b1 &&& 0x7f = 126) :
    readWebSocketFrame (b0 :: b1 :: e0 :: e1 :: rest) =
      if 4 + (e0 <<< 8 ||| e1) ≤ rest.length then
        .ok (b0 &&& 0x0f,
             xorMask (rest.take 4) 0 ((rest.drop 4).take (e0 <<< 8 ||| e1)),
             (rest.drop 4).drop (e0 <<< 8 ||| e1))
      else .error .ioError := by
  unfold readWebSocketFrame
  rw [readFullE_cons2]
  simp only [readFullE_cons2, List.getD_cons_zero, List.getD_cons_succ, hmask, h6,
    if_neg hfin, readFullE]
  norm_num
  by_cases h4 : 4 ≤ rest.length
  · by_cases hL : e0 <<< 8 ||| e1 ≤ rest.length - 4
    · simp [h4, hL, hmask, List.length_drop,
        show 4 + (e0 <<< 8 ||| e1) ≤ rest.length from by omega]
    · simp [h4, hL, hmask, List.length_drop,
        show ¬(4 + (e0 <<< 8 ||| e1) ≤ rest.length) from by omega]
  · simp [h4, hmask, List.length_drop,
      show ¬(4 + (e0 <<< 8 ||| e1) ≤ rest.length) from by omega]
theorem readFullE_cons8 (e0 e1 e2 e3 e4 e5 e6 e7 : Nat) (rest : List Nat) :
    readFullE 8 (e0 :: e1 :: e2 :: e3 :: e4 :: e5 :: e6 :: e7 :: rest) =
      .ok ([e0, e1, e2, e3, e4, e5, e6, e7], rest) := by
  simp [readFullE]

theorem decode_ext8 (b0 b1 e0 e1 e2 e3 e4 e5 e6 e7 : Nat) (rest : List Nat)
    (hfin : b0 &&& 0x80 ≠ 0) (hmask : b1 &&& 0x80 = 0) (h7 : b1 &&& 0x7f = 127) :
    readWebSocketFrame (b0 :: b1 :: e0 :: e1 :: e2 :: e3 :: e4 :: e5 :: e6 :: e7 :: rest) =
      if e0 <<< 56 ||| e1 <<< 48 ||| e2 <<< 40 ||| e3 <<< 32 ||| e4 <<< 24 |||
           e5 <<< 16 ||| e6 <<< 8 ||| e7 ≤ rest.length then
        .ok (b0 &&& 0x0f,
             rest.take (e0 <<< 56 ||| e1 <<< 48 ||| e2 <<< 40 ||| e3 <<< 32 |||
               e4 <<< 24 ||| e5 <<< 16 ||| e6 <<< 8 ||| e7),
             rest.drop (e0 <<< 56 ||| e1 <<< 48 ||| e2 <<< 40 ||| e3 <<< 32 |||
               e4 <<< 24 ||| e5 <<< 16 ||| e6 <<< 8 ||| e7))
      else .error .ioError := by
  unfold readWebSocketFrame
  rw [readFullE_cons2]
  simp only [readFullE_cons8, List.getD_cons_zero, List.getD_cons_succ, hmask, h7,
    if_neg hfin, readFullE]
  norm_num
  by_cases hL : e0 <<< 56 ||| e1 <<< 48 ||| e2 <<< 40 ||| e3 <<< 32 ||| e4 <<< 24 |||
      e5 <<< 16 ||| e6 <<< 8 ||| e7 ≤ rest.length <;> simp [hL, hmask]

theorem decode_ext8_masked (b0 b1 e0 e1 e2 e3 e4 e5 e6 e7 : Nat) (rest : List Nat)
    (hfin : b0 &&& 0x80 ≠ 0) (hmask : b1 &&& 0x80 ≠ 0) (h7 : b1 &&& 0x7f = 127) :
    readWebSocketFrame (b0 :: b1 :: e0 :: e1 :: e2 :: e3 :: e4 :: e5 :: e6 :: e7 :: rest) =
      if 4 + (e0 <<< 56 ||| e1 <<< 48 ||| e2 <<< 40 ||| e3 <<< 32 ||| e4 <<< 24 |||
           e5 <<< 16 ||| e6 <<< 8 ||| e7) ≤ rest.length then
        .ok (b0 &&& 0x0f,
             xorMask (rest.take 4) 0 ((rest.drop 4).take (e0 <<< 56 ||| e1 <<< 48 |||
               e2 <<< 40 ||| e3 <<< 32 ||| e4 <<< 24 ||| e5 <<< 16 ||| e6 <<< 8 ||| e7)),
             (rest.drop 4).drop (e0 <<< 56 ||| e1 <<< 48 ||| e2 <<< 40 ||| e3 <<< 32 |||
               e4 <<< 24 ||| e5 <<< 16 ||| e6 <<< 8 ||| e7))
      else .error .ioError := by
  unfold readWebSocketFrame
  rw [readFullE_cons2]
  simp only [readFullE_cons8, List.getD_cons_zero, List.getD_cons_succ, hmask, h7,
    if_neg hfin, readFullE]
  norm_num
  by_cases h4 : 4 ≤ rest.length
  · by_cases hL : e0 <<< 56 ||| e1 <<< 48 ||| e2 <<< 40 ||| e3 <<< 32 ||| e4 <<< 24 |||
        e5 <<< 16 ||| e6 <<< 8 ||| e7 ≤ rest.length - 4
    · simp [h4, hL, hmask, List.length_drop,
        show 4 + (e0 <<< 56 ||| e1 <<< 48 ||| e2 <<< 40 ||| e3 <<< 32 ||| e4 <<< 24 |||
          e5 <<< 16 ||| e6 <<< 8 ||| e7) ≤ rest.length from by omega]
    · simp [h4, hL, hmask, List.length_drop,
        show ¬(4 + (e0 <<< 56 ||| e1 <<< 48 ||| e2 <<< 40 ||| e3 <<< 32 ||| e4 <<< 24 |||
          e5 <<< 16 ||| e6 <<< 8 ||| e7) ≤ rest.length) from by omega]
  · simp [h4, hmask, List.length_drop,
      show ¬(4 + (e0 <<< 56 ||| e1 <<< 48 ||| e2 <<< 40 ||| e3 <<< 32 ||| e4 <<< 24 |||
        e5 <<< 16 ||| e6 <<< 8 ||| e7) ≤ rest.length) from by omega]

/-! ### Shape of the frames `writeWebSocketFrame` produces -/

theorem encode_small (op : Nat) (p : List Nat) (hp : p.length ≤ 125) :
    writeWebSocketFrame op p = (0x80 ||| op) :: p.length :: p := by
  simp [writeWebSocketFrame, byteOf, hp, Nat.mod_eq_of_lt (show p.length < 256 by omega)]

theorem encode_mid (op : Nat) (p : List Nat) (h1 : 125 < p.length) (h2 : p.length < 65536) :
    writeWebSocketFrame op p =
      (0x80 ||| op) :: 126 :: (p.length / 256) :: (p.length % 256) :: p := by
  have e1 : byteOf (p.length >>> 8) = p.length / 256 := by
    simp [byteOf, Nat.shiftRight_eq_div_pow]
    omega
  have e2 : byteOf (p.length &&& 0xff) = p.length % 256 := by
    simp [byteOf, and255_eq]
  simp [writeWebSocketFrame, show ¬(p.length ≤ 125) from by omega, h2, e1, e2]

theorem encode_big (op : Nat) (p : List Nat) (h : 65536 ≤ p.length) :
    writeWebSocketFrame op p =
      (0x80 ||| op) :: 127 ::
      (p.length / 2 ^ 56 % 256) :: (p.length / 2 ^ 48 % 256) ::
      (p.length / 2 ^ 40 % 256) :: (p.length / 2 ^ 32 % 256) ::
      (p.length / 2 ^ 24 % 256) :: (p.length / 2 ^ 16 % 256) ::
      (p.length / 2 ^ 8 % 256) :: (p.length % 256) :: p := by
  simp [writeWebSocketFrame, show ¬(p.length ≤ 125) from by omega,
    show ¬(p.length < 65536) from by omega, byteOf, Nat.shiftRight_eq_div_pow]

/-- Decoding a frame produced by the shared encoder returns the opcode and
payload unchanged, consuming the whole frame.  This is the unmasked
round-trip used by both the server→client and client→server directions. -/
theorem decode_encode (op : Nat) (p : List Nat) (hop : op < 16) (hp : p.length < 2 ^ 63) :
    readWebSocketFrame (writeWebSocketFrame op p) = .ok (op, p, []) := by
  have hfin : (0x80 ||| op) &&& 0x80 ≠ 0 := by
    rw [or_fin_bit]
    omega
  have hopc : (0x80 ||| op) &&& 0x0f = op := or_opcode op hop
  rcases Nat.lt_or_ge p.length 126 with hsm | h126
  · rw [encode_small op p (by omega)]
    have hmask : p.length &&& 0x80 = 0 := by
      rw [and128_eq]
      omega
    have h6 : p.length &&& 0x7f ≠ 126 := by
      rw [and127_eq]
      omega
    have h7 : p.length &&& 0x7f ≠ 127 := by
      rw [and127_eq]
      omega
    have hl : p.length &&& 0x7f = p.length := by
      rw [and127_eq]
      omega
    rw [decode_base _ _ _ hfin hmask h6 h7, hl, if_pos le_rfl, hopc]
    simp
  rcases Nat.lt_or_ge p.length 65536 with hmd | hbg
  · rw [encode_mid op p (by omega) hmd]
    have hval : (p.length / 256) <<< 8 ||| p.length % 256 = p.length := by
      rw [be2_or (p.length / 256) (p.length % 256) (by omega)]
      omega
    rw [decode_ext2 _ _ _ _ _ hfin (by decide) (by decide), hval, if_pos le_rfl, hopc]
    simp
  · rw [encode_big op p hbg]
    have hval : (p.length / 2 ^ 56 % 256) <<< 56 ||| (p.length / 2 ^ 48 % 256) <<< 48 |||
        (p.length / 2 ^ 40 % 256) <<< 40 ||| (p.length / 2 ^ 32 % 256) <<< 32 |||
        (p.length / 2 ^ 24 % 256) <<< 24 ||| (p.length / 2 ^ 16 % 256) <<< 16 |||
        (p.length / 2 ^ 8 % 256) <<< 8 ||| p.length % 256 = p.length := by
      rw [be8_or (p.length / 2 ^ 56 % 256) (p.length / 2 ^ 48 % 256)
        (p.length / 2 ^ 40 % 256) (p.length / 2 ^ 32 % 256) (p.length / 2 ^ 24 % 256)
        (p.length / 2 ^ 16 % 256) (p.length / 2 ^ 8 % 256) (p.length % 256)
        (by omega) (by omega) (by omega) (by omega) (by omega) (by omega) (by omega)]
      norm_num
      omega
    rw [decode_ext8 _ _ _ _ _ _ _ _ _ _ _ hfin (by decide) (by decide), hval,
      if_pos le_rfl, hopc]
    simp

/-- Masked round-trip: decoding an encoder-produced Text frame after the
client-style masking step restores the payload, in every length branch. -/
theorem decode_encode_masked (p key : List Nat) (hk : key.length = 4)
    (hp : p.length < 2 ^ 63) :
    readWebSocketFrame (applyClientMask key (writeWebSocketFrame 0x1 p)) =
      .ok (0x1, p, []) := by
  have t4 : (key ++ xorMask key 0 p).take 4 = key := by
    rw [← hk, List.take_left]
  have d4 : (key ++ xorMask key 0 p).drop 4 = xorMask key 0 p := by
    rw [← hk, List.drop_left]
  have tlen : (xorMask key 0 p).take p.length = xorMask key 0 p :=
    List.take_of_length_le (by rw [xorMask_length])
  have dlen : (xorMask key 0 p).drop p.length = [] :=
    List.drop_eq_nil_of_le (by rw [xorMask_length])
  rcases Nat.lt_or_ge p.length 126 with hsm | h126
  · rw [encode_small 0x1 p (by omega)]
    have c6 : ¬(p.length &&& 0x7f = 126) := by rw [and127_eq]; omega
    have c7 : ¬(p.length &&& 0x7f = 127) := by rw [and127_eq]; omega
    simp only [applyClientMask, if_neg c6, if_neg c7, List.take_zero, List.drop_zero,
      List.nil_append]
    have hb : p.length ||| 0x80 = 128 + p.length := or128_eq _ (by omega)
    have hmask : (p.length ||| 0x80) &&& 0x80 ≠ 0 := by rw [hb, and128_eq]; omega
    have h6 : (p.length ||| 0x80) &&& 0x7f ≠ 126 := by rw [hb, and127_eq]; omega
    have h7 : (p.length ||| 0x80) &&& 0x7f ≠ 127 := by rw [hb, and127_eq]; omega
    have hl : (p.length ||| 0x80) &&& 0x7f = p.length := by rw [hb, and127_eq]; omega
    rw [decode_base_masked _ _ _ (by decide) hmask h6 h7, hl,
      if_pos (by simp [xorMask_length, hk]), t4, d4, tlen, dlen,
      xorMask_involutive, show (0x80 ||| 0x1) &&& 0x0f = 0x1 from by decide]
  rcases Nat.lt_or_ge p.length 65536 with hmd | hbg
  · rw [encode_mid 0x1 p (by omega) hmd]
    simp only [applyClientMask,
      show (126:Nat) &&& 0x7f = 126 from by decide,
      show (126:Nat) ||| 0x80 = 254 from by decide,
      eq_self_iff_true, if_true, List.take_succ_cons, List.take_zero,
      List.drop_succ_cons, List.drop_zero, List.cons_append, List.nil_append]
    have hval : (p.length / 256) <<< 8 ||| p.length % 256 = p.length := by
      rw [be2_or (p.length / 256) (p.length % 256) (by omega)]
      omega
    rw [decode_ext2_masked _ _ _ _ _ (by decide) (by decide) (by decide), hval,
      if_pos (by simp [xorMask_length, hk]), t4, d4, tlen, dlen,
      xorMask_involutive, show (0x80 ||| 0x1) &&& 0x0f = 0x1 from by decide]
  · rw [encode_big 0x1 p hbg]
    simp only [applyClientMask,
      show (127:Nat) &&& 0x7f = 127 from by decide,
      show ¬((127:Nat) = 126) from by decide,
      show (127:Nat) ||| 0x80 = 255 from by decide,
      eq_self_iff_true, if_true, if_false, List.take_succ_cons, List.take_zero,
      List.drop_succ_cons, List.drop_zero, List.cons_append, List.nil_append]
    have hval : (p.length / 2 ^ 56 % 256) <<< 56 ||| (p.length / 2 ^ 48 % 256) <<< 48 |||
        (p.length / 2 ^ 40 % 256) <<< 40 ||| (p.length / 2 ^ 32 % 256) <<< 32 |||
        (p.length / 2 ^ 24 % 256) <<< 24 ||| (p.length / 2 ^ 16 % 256) <<< 16 |||
        (p.length / 2 ^ 8 % 256) <<< 8 ||| p.length % 256 = p.length := by
      rw [be8_or (p.length / 2 ^ 56 % 256) (p.length / 2 ^ 48 % 256)
        (p.length / 2 ^ 40 % 256) (p.length / 2 ^ 32 % 256) (p.length / 2 ^ 24 % 256)
        (p.length / 2 ^ 16 % 256) (p.length / 2 ^ 8 % 256) (p.length % 256)
        (by omega) (by omega) (by omega) (by omega) (by omega) (by omega) (by omega)]
      norm_num
      omega
    rw [decode_ext8_masked _ _ _ _ _ _ _ _ _ _ _ (by decide) (by decide) (by decide), hval,
      if_pos (by simp [xorMask_length, hk]), t4, d4, tlen, dlen,
      xorMask_involutive, show (0x80 ||| 0x1) &&& 0x0f = 0x1 from by decide]

/-- The second header byte of every encoded frame has the mask bit clear. -/
theorem encode_mask_bit_clear (op : Nat) (p : List Nat) :
    ((writeWebSocketFrame op p).getD 1 0) &&& 0x80 = 0 := by
  rcases Nat.lt_or_ge p.length 126 with hsm | h126
  · rw [encode_small op p (by omega)]
    simp only [List.getD_cons_succ, List.getD_cons_zero]
    rw [and128_eq]
    omega
  rcases Nat.lt_or_ge p.length 65536 with hmd | hbg
  · rw [encode_mid op p (by omega) hmd]
    simp only [List.getD_cons_succ, List.getD_cons_zero]
    decide
  · rw [encode_big op p hbg]
    simp only [List.getD_cons_succ, List.getD_cons_zero]
    decide

/-- Claim C1: for every payload and every 4-byte mask key, decoding the frame
produced by `writeWebSocketFrame 0x1` after the client-style masking step
returns opcode Text and the payload unchanged (all three length-encoding
branches), and XOR-masking with the same key and `i mod 4` pattern is
involutive. -/
theorem wsFrame_masked_roundtrip (p key : List Nat) (hk : key.length = 4)
    (hp : p.length < 2 ^ 63) :
    readWebSocketFrame (applyClientMask key (writeWebSocketFrame 0x1 p)) =
      .ok (0x1, p, [])
    ∧ ∀ i q, xorMask key i (xorMask key i q) = q :=
  ⟨decode_encode_masked p key hk hp, fun i q => xorMask_involutive key q i⟩

theorem wsFrame_masked_roundtrip_witness :
    readWebSocketFrame (applyClientMask [7, 11, 13, 17] (writeWebSocketFrame 0x1 [1, 2, 3])) =
      .ok (0x1, [1, 2, 3], [])
    ∧ xorMask [7, 11, 13, 17] 0 (xorMask [7, 11, 13, 17] 0 [9]) = [9] := by
  have h := wsFrame_masked_roundtrip [1, 2, 3] [7, 11, 13, 17] (by decide) (by norm_num)
  exact ⟨h.1, h.2 0 [9]⟩

/-- Claim C5: every encoded frame has the final bit set in its first byte, the
mask bit clear in its second byte, and uses the minimal length encoding
with thresholds 125 and 65535. -/
theorem wsFrame_encode_minimal_header (op : Nat) (p : List Nat) (hp : p.length < 2 ^ 63) :
    ((writeWebSocketFrame op p).getD 0 0) &&& 0x80 = 0x80
    ∧ ((writeWebSocketFrame op p).getD 1 0) &&& 0x80 = 0
    ∧ (p.length ≤ 125 →
        writeWebSocketFrame op p = (0x80 ||| op) :: p.length :: p)
    ∧ (126 ≤ p.length → p.length < 65536 →
        (writeWebSocketFrame op p).getD 1 0 = 126
        ∧ (writeWebSocketFrame op p).length = 4 + p.length
        ∧ beListVal (((writeWebSocketFrame op p).drop 2).take 2) = p.length)
    ∧ (65536 ≤ p.length →
        (writeWebSocketFrame op p).getD 1 0 = 127
        ∧ (writeWebSocketFrame op p).length = 10 + p.length
        ∧ beListVal (((writeWebSocketFrame op p).drop 2).take 8) = p.length) := by
  refine ⟨?_, encode_mask_bit_clear op p, fun h => encode_small op p h, ?_, ?_⟩
  · rcases Nat.lt_or_ge p.length 126 with hsm | h126
    · rw [encode_small op p (by omega)]
      simpa using or_fin_bit op
    rcases Nat.lt_or_ge p.length 65536 with hmd | hbg
    · rw [encode_mid op p (by omega) hmd]
      simpa using or_fin_bit op
    · rw [encode_big op p hbg]
      simpa using or_fin_bit op
  · intro h1 h2
    rw [encode_mid op p (by omega) h2]
    refine ⟨rfl, by simp; omega, ?_⟩
    simp [beListVal]
    omega
  · intro h
    rw [encode_big op p h]
    refine ⟨rfl, by simp; omega, ?_⟩
    simp [beListVal]
    omega

theorem wsFrame_encode_minimal_header_witness :
    ((writeWebSocketFrame 0x1 [5, 6]).getD 0 0) &&& 0x80 = 0x80
    ∧ ((writeWebSocketFrame 0x1 [5, 6]).getD 1 0) &&& 0x80 = 0
    ∧ ([5, 6].length ≤ 125 →
        writeWebSocketFrame 0x1 [5, 6] = (0x80 ||| 0x1) :: [5, 6].length :: [5, 6])
    ∧ (126 ≤ [5, 6].length → [5, 6].length < 65536 →
        (writeWebSocketFrame 0x1 [5, 6]).getD 1 0 = 126
        ∧ (writeWebSocketFrame 0x1 [5, 6]).length = 4 + [5, 6].length
        ∧ beListVal (((writeWebSocketFrame 0x1 [5, 6]).drop 2).take 2) = [5, 6].length)
    ∧ (65536 ≤ [5, 6].length →
        (writeWebSocketFrame 0x1 [5, 6]).getD 1 0 = 127
        ∧ (writeWebSocketFrame 0x1 [5, 6]).length = 10 + [5, 6].length
        ∧ beListVal (((writeWebSocketFrame 0x1 [5, 6]).drop 2).take 8) = [5, 6].length) :=
  wsFrame_encode_minimal_header 0x1 [5, 6] (by norm_num)

/-- Claim C10: the shared encoder used by the client for its identity, chat and
close frames never sets the mask bit, and the server-side decoder accepts
such unmasked frames, returning opcode and payload unchanged. -/
theorem client_frames_unmasked_accepted (op : Nat) (p : List Nat)
    (hop : op < 16) (hp : p.length < 2 ^ 63) :
    ((writeWebSocketFrame op p).getD 1 0) &&& 0x80 = 0
    ∧ readWebSocketFrame (writeWebSocketFrame op p) = .ok (op, p, []) :=
  ⟨encode_mask_bit_clear op p, decode_encode op p hop hp⟩

theorem client_frames_unmasked_accepted_witness :
    ((writeWebSocketFrame 0x8 []).getD 1 0) &&& 0x80 = 0
    ∧ readWebSocketFrame (writeWebSocketFrame 0x8 []) = .ok (0x8, [], []) :=
  client_frames_unmasked_accepted 0x8 [] (by norm_num) (by norm_num)

/-- Claim C2: decoding fails with `protocolError` whenever the final bit is unset
and with `ioError` on short reads; a header claiming length 127 with an
8-byte extended length of 5 followed by exactly 5 bytes yields that payload,
while fewer than 5 available bytes fail with `ioError`. -/
theorem wsFrame_decode_errors :
    (∀ s : List Nat, s.length < 2 → readWebSocketFrame s = .error .ioError)
    ∧ (∀ b0 b1 : Nat, ∀ rest : List Nat, b0 &&& 0x80 = 0 →
        readWebSocketFrame (b0 :: b1 :: rest) = .error .protocolError)
    ∧ (∀ ps : List Nat, ps.length = 5 →
        readWebSocketFrame (0x81 :: 127 :: 0 :: 0 :: 0 :: 0 :: 0 :: 0 :: 0 :: 5 :: ps) =
          .ok (0x1, ps, []))
    ∧ (∀ ps : List Nat, ps.length < 5 →
        readWebSocketFrame (0x81 :: 127 :: 0 :: 0 :: 0 :: 0 :: 0 :: 0 :: 0 :: 5 :: ps) =
          .error .ioError) := by
  have hval : (0:Nat) <<< 56 ||| (0:Nat) <<< 48 ||| (0:Nat) <<< 40 ||| (0:Nat) <<< 32 |||
      (0:Nat) <<< 24 ||| (0:Nat) <<< 16 ||| (0:Nat) <<< 8 ||| (5:Nat) = 5 := by decide
  refine ⟨fun s h => decode_short_header s h,
    fun b0 b1 rest h => decode_not_fin b0 b1 rest h, ?_, ?_⟩
  · intro ps hlen
    rw [decode_ext8 _ _ _ _ _ _ _ _ _ _ _ (by decide) (by decide) (by decide), hval,
      if_pos (by omega), show (0x81:Nat) &&& 0x0f = 0x1 from by decide,
      List.take_of_length_le (by omega), List.drop_eq_nil_of_le (by omega)]
  · intro ps hlen
    rw [decode_ext8 _ _ _ _ _ _ _ _ _ _ _ (by decide) (by decide) (by decide), hval,
      if_neg (by omega)]

theorem wsFrame_decode_errors_witness :
    readWebSocketFrame [0x01, 0] = .error .protocolError
    ∧ readWebSocketFrame (0x81 :: 127 :: 0 :: 0 :: 0 :: 0 :: 0 :: 0 :: 0 :: 5 ::
        [1, 2, 3, 4, 5]) = .ok (0x1, [1, 2, 3, 4, 5], [])
    ∧ readWebSocketFrame (0x81 :: 127 :: 0 :: 0 :: 0 :: 0 :: 0 :: 0 :: 0 :: 5 ::
        [1, 2, 3]) = .error .ioError :=
  ⟨wsFrame_decode_errors.2.1 0x01 0 [] (by decide),
   wsFrame_decode_errors.2.2.1 [1, 2, 3, 4, 5] (by decide),
   wsFrame_decode_errors.2.2.2 [1, 2, 3] (by decide)⟩

/-- Claim C8: the 2-byte and 8-byte extended length fields are interpreted as
big-endian unsigned values (unsigned 64-bit arithmetic), and the decoded
length always equals the number of payload bytes actually read; payloads of
length at least `2 ^ 63` are out of scope. -/
theorem wsFrame_length_unsigned64 :
    (∀ b0 e0 e1 : Nat, ∀ tail : List Nat, b0 &&& 0x80 ≠ 0 → e0 < 256 → e1 < 256 →
        readWebSocketFrame (b0 :: 126 :: e0 :: e1 :: tail) =
          (if e0 * 256 + e1 ≤ tail.length then
            .ok (b0 &&& 0x0f, tail.take (e0 * 256 + e1), tail.drop (e0 * 256 + e1))
          else .error .ioError)
        ∧ (e0 * 256 + e1 ≤ tail.length →
            (tail.take (e0 * 256 + e1)).length = e0 * 256 + e1))
    ∧ (∀ b0 e0 e1 e2 e3 e4 e5 e6 e7 : Nat, ∀ tail : List Nat,
        b0 &&& 0x80 ≠ 0 → e0 < 256 → e1 < 256 → e2 < 256 → e3 < 256 → e4 < 256 →
        e5 < 256 → e6 < 256 → e7 < 256 →
        beListVal [e0, e1, e2, e3, e4, e5, e6, e7] < 2 ^ 63 →
        readWebSocketFrame (b0 :: 127 :: e0 :: e1 :: e2 :: e3 :: e4 :: e5 :: e6 ::
            e7 :: tail) =
          (if beListVal [e0, e1, e2, e3, e4, e5, e6, e7] ≤ tail.length then
            .ok (b0 &&& 0x0f,
                 tail.take (beListVal [e0, e1, e2, e3, e4, e5, e6, e7]),
                 tail.drop (beListVal [e0, e1, e2, e3, e4, e5, e6, e7]))
          else .error .ioError)
        ∧ (beListVal [e0, e1, e2, e3, e4, e5, e6, e7] ≤ tail.length →
            (tail.take (beListVal [e0, e1, e2, e3, e4, e5, e6, e7])).length =
              beListVal [e0, e1, e2, e3, e4, e5, e6, e7])) := by
  constructor
  · intro b0 e0 e1 tail hfin h0 h1
    have hv : e0 <<< 8 ||| e1 = e0 * 256 + e1 := by
      rw [be2_or e0 e1 h1]
      ring
    refine ⟨?_, fun h => by simp [List.length_take]; omega⟩
    rw [decode_ext2 _ _ _ _ _ hfin (by decide) (by decide), hv]
  · intro b0 e0 e1 e2 e3 e4 e5 e6 e7 tail hfin h0 h1 h2 h3 h4 h5 h6 h7 hscope
    have hbe : e0 * 2 ^ 56 + e1 * 2 ^ 48 + e2 * 2 ^ 40 + e3 * 2 ^ 32 + e4 * 2 ^ 24 +
        e5 * 2 ^ 16 + e6 * 2 ^ 8 + e7 = beListVal [e0, e1, e2, e3, e4, e5, e6, e7] := by
      simp [beListVal]
      omega
    refine ⟨?_, fun h => by simp [List.length_take]; omega⟩
    rw [decode_ext8 _ _ _ _ _ _ _ _ _ _ _ hfin (by decide) (by decide),
      be8_or e0 e1 e2 e3 e4 e5 e6 e7 h1 h2 h3 h4 h5 h6 h7, hbe]

theorem wsFrame_length_unsigned64_witness :
    readWebSocketFrame (0x81 :: 126 :: 0 :: 2 :: [9, 9]) = .ok (0x1, [9, 9], [])
    ∧ readWebSocketFrame (0x81 :: 127 :: 0 :: 0 :: 0 :: 0 :: 0 :: 0 :: 0 :: 1 :: [4]) =
        .ok (0x1, [4], []) := by
  have h1 := (wsFrame_length_unsigned64.1 0x81 0 2 [9, 9] (by decide) (by decide)
    (by decide)).1
  have h2 := (wsFrame_length_unsigned64.2 0x81 0 0 0 0 0 0 0 1 [4] (by decide) (by decide)
    (by decide) (by decide) (by decide) (by decide) (by decide) (by decide) (by decide)
    (by decide)).1
  constructor
  · rw [h1]
    norm_num [and15_eq]
  · rw [h2]
    norm_num [and15_eq, beListVal]

set_option maxRecDepth 100000 in
theorem sha1_rfc6455_example :
    sha1 (strBytes ("dGhlIHNhbXBsZSBub25jZQ==" ++ magicGUID)) =
      [179, 122, 79, 44, 192, 98, 79, 22, 144, 246, 70, 6, 207, 56, 89, 69,
       178, 190, 196, 234] := by
  decide


/-- Claim C3: the server-side handshake check fails (and then `WebSocketHandler`
rejects the request without reading any frame, for every stream) precisely
when one of the four header conditions fails; when all hold the request is
never rejected and the accept key is `base64(sha1(key ++ magicGUID))`. -/
theorem handshake_accept_iff (r : Headers) :
    (isWebSocketUpgrade r = false ↔
      ¬(eqFold r.connection "Upgrade" = true ∧ eqFold r.upgrade "websocket" = true ∧
        r.secWebSocketKey ≠ "" ∧ containsSub r.secWebSocketVersion.data "13".data = true))
    ∧ (isWebSocketUpgrade r = false → ∀ stream, webSocketHandlerPhase1 r stream = .rejected)
    ∧ (isWebSocketUpgrade r = true →
        (∀ stream, webSocketHandlerPhase1 r stream ≠ .rejected)
        ∧ computeAcceptKey r.secWebSocketKey =
            base64Encode (sha1 (strBytes (r.secWebSocketKey ++ magicGUID)))) := by
  refine ⟨?_, ?_, ?_⟩
  · unfold isWebSocketUpgrade
    by_cases h1 : eqFold r.connection "Upgrade" <;>
      by_cases h2 : eqFold r.upgrade "websocket" <;>
        by_cases h3 : r.secWebSocketKey = "" <;>
          by_cases h4 : containsSub r.secWebSocketVersion.data "13".data <;>
            simp [h1, h2, h3, h4, beq_iff_eq]
  · intro h stream
    unfold webSocketHandlerPhase1
    simp [h]
  · intro h
    refine ⟨fun stream => ?_, rfl⟩
    unfold webSocketHandlerPhase1
    simp only [h, Bool.not_true, Bool.false_eq_true, if_false]
    cases hf : readWebSocketFrame stream with
    | error e => simp
    | ok v =>
      obtain ⟨op, payload, rest⟩ := v
      by_cases hop : op == 0x8 <;> simp [hop]

theorem handshake_accept_iff_witness :
    webSocketHandlerPhase1 ⟨"close", "websocket", "k", "13"⟩ [] = .rejected
    ∧ computeAcceptKey "abc" = base64Encode (sha1 (strBytes ("abc" ++ magicGUID))) :=
  ⟨(handshake_accept_iff ⟨"close", "websocket", "k", "13"⟩).2.1 (by decide) [],
   ((handshake_accept_iff ⟨"Upgrade", "WebSocket", "abc", "13"⟩).2.2 (by decide)).2⟩

/-- Claim C7: after a successful handshake, the first decoded frame's payload,
whitespace-trimmed (empty becoming `"Anonymous"`) and HTML-escaped, becomes
the registered display name; a Close opcode or a read error on that first
frame ends the session with no registration. -/
theorem session_identity_phase (r : Headers) (stream : List Nat)
    (hup : isWebSocketUpgrade r = true) :
    (∀ e, readWebSocketFrame stream = .error e →
        webSocketHandlerPhase1 r stream = .closedBeforeIdentity)
    ∧ (∀ p rest, readWebSocketFrame stream = .ok (0x8, p, rest) →
        webSocketHandlerPhase1 r stream = .closedBeforeIdentity)
    ∧ (∀ op p rest, readWebSocketFrame stream = .ok (op, p, rest) → op ≠ 0x8 →
        webSocketHandlerPhase1 r stream =
          .registered
            (htmlEscape (if trimSpace p = [] then strBytes "Anonymous"
                         else trimSpace p))
            rest) := by
  unfold webSocketHandlerPhase1
  simp only [hup, Bool.not_true, Bool.false_eq_true, if_false]
  refine ⟨?_, ?_, ?_⟩
  · intro e hf
    rw [hf]
  · intro p rest hf
    rw [hf]
    simp
  · intro op p rest hf hop
    rw [hf]
    simp only [show (op == 0x8) = false from by simp [hop], if_false]
    by_cases he : trimSpace p = [] <;> simp [he]

theorem session_identity_phase_witness :
    webSocketHandlerPhase1 ⟨"Upgrade", "websocket", "k", "13"⟩
        (writeWebSocketFrame 0x1 (strBytes " Alice ")) =
      .registered
        (htmlEscape (if trimSpace (strBytes " Alice ") = [] then strBytes "Anonymous"
                     else trimSpace (strBytes " Alice ")))
        [] :=
  (session_identity_phase ⟨"Upgrade", "websocket", "k", "13"⟩
      (writeWebSocketFrame 0x1 (strBytes " Alice ")) (by decide)).2.2
    0x1 (strBytes " Alice ") [] (by rfl) (by decide)

theorem broadcastDeliver_not_mem (fail : Client → Bool) (frame : List Nat)
    (clients : List Client) (streams : Client → List Nat) (c : Client)
    (hc : c ∉ clients) :
    broadcastDeliver fail frame clients streams c = streams c := by
  induction clients generalizing streams with
  | nil => rfl
  | cons a rest ih =>
    have hne : c ≠ a := fun h => hc (h ▸ List.mem_cons_self a rest)
    have hrest : c ∉ rest := fun h => hc (List.mem_cons_of_mem a h)
    simp only [broadcastDeliver]
    rw [ih _ hrest]
    simp [hne]

/-- Claim C9: `unregister` is idempotent on the hub's membership; unregistering an
absent session is a no-op, and other members are unaffected. -/
theorem hub_unregister_idempotent (h : hubState) (c : Client) :
    (h.unregister c).unregister c = h.unregister c
    ∧ (c ∉ h.clients → h.unregister c = h)
    ∧ ∀ d, d ≠ c → (d ∈ (h.unregister c).clients ↔ d ∈ h.clients) := by
  refine ⟨?_, ?_, ?_⟩
  · unfold hubState.unregister
    simp [List.filter_filter]
  · intro hc
    unfold hubState.unregister
    have he : h.clients.filter (fun d => d != c) = h.clients := by
      apply List.filter_eq_self.mpr
      intro a ha
      simp only [bne_iff_ne, ne_eq]
      rintro rfl
      exact hc ha
    rw [he]
  · intro d hd
    unfold hubState.unregister
    simp [List.mem_filter, hd]

theorem hub_unregister_idempotent_witness :
    ((hubState.mk [⟨0, []⟩]).unregister ⟨1, []⟩).unregister ⟨1, []⟩ =
      (hubState.mk [⟨0, []⟩]).unregister ⟨1, []⟩
    ∧ (hubState.mk [⟨0, []⟩]).unregister ⟨1, []⟩ = hubState.mk [⟨0, []⟩]
    ∧ (⟨0, []⟩ ∈ ((hubState.mk [⟨0, []⟩]).unregister ⟨1, []⟩).clients ↔
        ⟨0, []⟩ ∈ (hubState.mk [⟨0, []⟩]).clients) :=
  ⟨(hub_unregister_idempotent ⟨[⟨0, []⟩]⟩ ⟨1, []⟩).1,
   (hub_unregister_idempotent ⟨[⟨0, []⟩]⟩ ⟨1, []⟩).2.1 (by decide),
   (hub_unregister_idempotent ⟨[⟨0, []⟩]⟩ ⟨1, []⟩).2.2 ⟨0, []⟩ (by decide)⟩

/-- Claim C6: during a broadcast, a write failure on some recipients never
prevents delivery to any other registered session: every non-failing
member still has the whole frame appended to its stream. -/
theorem hub_broadcast_fault_isolation (clients : List Client)
    (streams : Client → List Nat) (fail : Client → Bool) (frame : List Nat)
    (c : Client) (hnd : clients.Nodup) (hc : c ∈ clients) (hok : fail c = false) :
    broadcastDeliver fail frame clients streams c = streams c ++ frame := by
  induction clients generalizing streams with
  | nil => cases hc
  | cons a rest ih =>
    rcases List.mem_cons.mp hc with rfl | hmem
    · have hnotin : c ∉ rest := (List.nodup_cons.mp hnd).1
      simp only [broadcastDeliver]
      rw [broadcastDeliver_not_mem _ _ _ _ _ hnotin]
      simp [hok]
    · have hne : c ≠ a := by
        rintro rfl
        exact (List.nodup_cons.mp hnd).1 hmem
      simp only [broadcastDeliver]
      rw [ih _ (List.nodup_cons.mp hnd).2 hmem]
      simp [hne]

theorem hub_broadcast_fault_isolation_witness :
    broadcastDeliver (fun d => d == ⟨1, []⟩) [0x81, 0]
      [⟨0, []⟩, ⟨1, []⟩, ⟨2, []⟩] (fun _ => []) ⟨2, []⟩ = [0x81, 0] := by
  have h := hub_broadcast_fault_isolation [⟨0, []⟩, ⟨1, []⟩, ⟨2, []⟩]
    (fun _ => []) (fun d => d == ⟨1, []⟩) [0x81, 0] ⟨2, []⟩
    (by decide) (by decide) (by decide)
  simpa using h

/-- Claim C4: `broadcast` writes exactly one Text frame to every currently
registered session, including the sender, and each such frame decodes to
the payload `"<sender username>: <msg>"`. -/
theorem hub_broadcast_delivery (h : hubState) (sender : Client) (msg : List Nat)
    (c : Client) (hnd : h.clients.Nodup) (hc : c ∈ h.clients)
    (hlen : (broadcastMessage sender msg).length < 2 ^ 63) :
    ((h.broadcastWrites sender msg).filter (fun e => e.1 == c)).length = 1
    ∧ (c, writeWebSocketFrame 0x1 (broadcastMessage sender msg)) ∈
        h.broadcastWrites sender msg
    ∧ ∀ e ∈ h.broadcastWrites sender msg,
        readWebSocketFrame e.2 = .ok (0x1, broadcastMessage sender msg, []) := by
  refine ⟨?_, ?_, ?_⟩
  · unfold hubState.broadcastWrites
    rw [List.filter_map, List.length_map, ← List.countP_eq_length_filter]
    exact List.count_eq_one_of_mem hnd hc
  · exact List.mem_map.mpr ⟨c, hc, rfl⟩
  · intro e he
    obtain ⟨d, hd, rfl⟩ := List.mem_map.mp he
    exact decode_encode 0x1 _ (by omega) hlen

theorem hub_broadcast_delivery_witness :
    (((hubState.mk [⟨0, strBytes "Alice"⟩, ⟨1, strBytes "Bob"⟩]).broadcastWrites
        ⟨0, strBytes "Alice"⟩ (strBytes "hi")).filter
          (fun e => e.1 == (⟨1, strBytes "Bob"⟩ : Client))).length = 1
    ∧ ((⟨1, strBytes "Bob"⟩ : Client),
        writeWebSocketFrame 0x1 (broadcastMessage ⟨0, strBytes "Alice"⟩ (strBytes "hi"))) ∈
        (hubState.mk [⟨0, strBytes "Alice"⟩, ⟨1, strBytes "Bob"⟩]).broadcastWrites
          ⟨0, strBytes "Alice"⟩ (strBytes "hi")
    ∧ (∀ e ∈ (hubState.mk [⟨0, strBytes "Alice"⟩, ⟨1, strBytes "Bob"⟩]).broadcastWrites
          ⟨0, strBytes "Alice"⟩ (strBytes "hi"),
        readWebSocketFrame e.2 =
          .ok (0x1, broadcastMessage ⟨0, strBytes "Alice"⟩ (strBytes "hi"), []))
    ∧ broadcastMessage ⟨0, strBytes "Alice"⟩ (strBytes "hi") = strBytes "Alice: hi" := by
  have h := hub_broadcast_delivery ⟨[⟨0, strBytes "Alice"⟩, ⟨1, strBytes "Bob"⟩]⟩
    ⟨0, strBytes "Alice"⟩ (strBytes "hi") ⟨1, strBytes "Bob"⟩
    (by decide) (by decide) (by decide)
  exact ⟨h.1, h.2.1, h.2.2, by decide⟩
